import Mathlib

/-!
# Employee REST service: embedding and verified properties

A shallow embedding of the Go service in `src/`:

* `schema/employee.go`     : the `Employee` record and its struct tags;
* `repository/employee.go` : the storage gateway, six methods over one MongoDB collection;
* `usecase/employee.go`    : the six HTTP handlers and the `Response` envelope.

The MongoDB driver and `net/http` are libraries outside the repository.  The driver is
taken as a parameter (`Collection σ`, arbitrary operations over a store state `σ`); for
the statements that need a concrete store there is an in-memory collection `mem`.
Struct marshalling follows the struct tags written in the source.  Logging is not
modelled.
-/

set_option autoImplicit false

namespace RestApi

/-! ## schema/employee.go -/

/-- The Go struct `schema.Employee`: four string fields. -/
structure Employee where
  EID : String := ""
  Name : String := ""
  Department : String := ""
  Position : String := ""
deriving DecidableEq, Repr

/-- A parsed struct tag value `"name,omitempty"`. -/
structure Tag where
  name : String
  omitempty : Bool
deriving DecidableEq, Repr

/-- One declared field of `schema.Employee`: Go name, the tags present in the source,
and the accessors of the field. -/
structure FieldInfo where
  goName : String
  json : Option Tag
  bson : Option Tag
  get : Employee → String
  set : Employee → String → Employee

/-- The field table of `schema.Employee`, exactly as declared: every field carries a
`json` tag with `omitempty`, and no field carries a `bson` tag. -/
def Employee.fields : List FieldInfo :=
  [ { goName := "EID", json := some ⟨"e_id", true⟩, bson := none,
      get := Employee.EID, set := fun e v => { e with EID := v } },
    { goName := "Name", json := some ⟨"name", true⟩, bson := none,
      get := Employee.Name, set := fun e v => { e with Name := v } },
    { goName := "Department", json := some ⟨"department", true⟩, bson := none,
      get := Employee.Department, set := fun e v => { e with Department := v } },
    { goName := "Position", json := some ⟨"position", true⟩, bson := none,
      get := Employee.Position, set := fun e v => { e with Position := v } } ]

/-! ## Struct codecs (encoding/json and the driver's BSON struct codec) -/

/-- ASCII lower-casing, `strings.ToLower` on the identifiers used here. -/
def lowerAscii (s : String) : String := String.mk (s.data.map Char.toLower)

/-- Key of a field for `encoding/json`: the `json` tag name, else the Go name. -/
def FieldInfo.jsonKey (f : FieldInfo) : String :=
  match f.json with
  | some t => if t.name = "" then f.goName else t.name
  | none => f.goName

/-- Whether `encoding/json` omits the field when empty. -/
def FieldInfo.jsonOmitEmpty (f : FieldInfo) : Bool :=
  match f.json with
  | some t => t.omitempty
  | none => false

/-- Key of a field for the driver's default BSON struct codec: the `bson` tag name,
else the lower-cased Go name.  The `json` tag is not consulted. -/
def FieldInfo.bsonKey (f : FieldInfo) : String :=
  match f.bson with
  | some t => if t.name = "" then lowerAscii f.goName else t.name
  | none => lowerAscii f.goName

/-- Whether the BSON struct codec omits the field when empty: only a `bson` tag can
ask for it. -/
def FieldInfo.bsonOmitEmpty (f : FieldInfo) : Bool :=
  match f.bson with
  | some t => t.omitempty
  | none => false

/-- A BSON value: the strings the service writes and the ObjectID the driver adds. -/
inductive BVal
  | str (s : String)
  | oid (n : Nat)
deriving DecidableEq, Repr

/-- A BSON document (`bson.D`): ordered key/value pairs. -/
abbrev Doc := List (String × BVal)

/-- An update document `bson.D{{Key: op, Value: doc}}`: update operators with their
argument documents. -/
abbrev UpdateDoc := List (String × Doc)

/-- A JSON object whose members are strings (an encoded `Employee`). -/
abbrev JObject := List (String × String)

/-- The JSON values that occur as members of the response envelope. -/
inductive JVal
  | null
  | str (s : String)
  | num (n : Int)
  | obj (o : JObject)
  | arr (l : List JObject)
deriving DecidableEq, Repr

/-- The JSON object written for a `Response`. -/
abbrev JEnvelope := List (String × JVal)

/-- JSON encoding of an `Employee` (`encoding/json`, honouring `omitempty`). -/
def jsonMarshal (e : Employee) : JObject :=
  Employee.fields.filterMap fun f =>
    if f.jsonOmitEmpty = true ∧ f.get e = "" then none else some (f.jsonKey, f.get e)

/-- BSON encoding of an `Employee` by the driver's struct codec. -/
def bsonMarshal (e : Employee) : Doc :=
  Employee.fields.filterMap fun f =>
    if f.bsonOmitEmpty = true ∧ f.get e = "" then none else some (f.bsonKey, BVal.str (f.get e))

/-- The struct field a document key decodes into: the field whose BSON key is the
key itself, else the one whose BSON key is the lower-cased key. -/
def fieldForKey (k : String) : Option FieldInfo :=
  match Employee.fields.find? (fun f => f.bsonKey = k) with
  | some f => some f
  | none => Employee.fields.find? (fun f => f.bsonKey = lowerAscii k)

/-- Decoding one document element into the struct. -/
def decodeElem (acc : Except String Employee) (kv : String × BVal) : Except String Employee :=
  match acc with
  | .error m => .error m
  | .ok e =>
    match fieldForKey kv.1 with
    | none => .ok e
    | some f =>
      match kv.2 with
      | .str s => .ok (f.set e s)
      | .oid _ => .error "cannot decode objectID into a string type"

/-- BSON decoding of a document into an `Employee`: elements are visited in order,
unknown keys are skipped, a non-string value for a string field is an error. -/
def bsonUnmarshal (d : Doc) : Except String Employee :=
  d.foldl decodeElem (.ok {})

/-! ## The MongoDB collection (driver interface) -/

/-- Result of `InsertOne`. -/
structure InsertOneResult where
  InsertedID : BVal
deriving DecidableEq, Repr

/-- Result of `UpdateOne`. -/
structure UpdateResult where
  MatchedCount : Int
  ModifiedCount : Int
deriving DecidableEq, Repr

/-- Result of `DeleteOne` and `DeleteMany`. -/
structure DeleteResult where
  DeletedCount : Int
deriving DecidableEq, Repr

/-- A `*mongo.SingleResult`: the error of the lookup or the document found. -/
abbrev SingleResult := Except String Doc

/-- A `*mongo.Cursor`, by what iterating it to the end yields: an error or the
documents. -/
abbrev Cursor := Except String (List Doc)

/-- The operations of `*mongo.Collection` that the repository calls, over a store
state `σ`.  Each returns its Go result pair and the store state afterwards. -/
structure Collection (σ : Type) where
  InsertOne : Doc → σ → Except String InsertOneResult × σ
  FindOne : Doc → σ → SingleResult × σ
  Find : Doc → σ → Except String Cursor × σ
  UpdateOne : Doc → UpdateDoc → σ → Except String UpdateResult × σ
  DeleteOne : Doc → σ → Except String DeleteResult × σ
  DeleteMany : Doc → σ → Except String DeleteResult × σ

/-- `SingleResult.Decode(&employee)`. -/
def SingleResult.Decode (r : SingleResult) : Except String Employee :=
  match r with
  | .error m => .error m
  | .ok d => bsonUnmarshal d

/-- Decoding a list of documents, stopping at the first error. -/
def decodeAll : List Doc → Except String (List Employee)
  | [] => .ok []
  | d :: ds =>
    match bsonUnmarshal d with
    | .error m => .error m
    | .ok e =>
      match decodeAll ds with
      | .error m => .error m
      | .ok es => .ok (e :: es)

/-- `Cursor.All(ctx, &employees)` on a nil slice: the decoded documents are appended
to the slice; `none` is the nil slice, which is what remains when there is no
document. -/
def Cursor.All (c : Cursor) : Except String (Option (List Employee)) :=
  match c with
  | .error m => .error m
  | .ok ds =>
    match decodeAll ds with
    | .error m => .error m
    | .ok es => .ok (if es = [] then none else some es)

/-! ## repository/employee.go -/

namespace EmployeeRepository

variable {σ : Type}

/-- `InsertEmployee`: one `InsertOne` of the marshalled employee; returns the
inserted id or the error. -/
def InsertEmployee (coll : Collection σ) (employee : Employee) (s : σ) :
    Except String BVal × σ :=
  let out := coll.InsertOne (bsonMarshal employee) s
  match out.1 with
  | .error err => (.error err, out.2)
  | .ok result => (.ok result.InsertedID, out.2)

/-- `GetEmployeeById`: `FindOne` with the filter `{e_id: eid}`, decoded into an
employee. -/
def GetEmployeeById (coll : Collection σ) (eid : String) (s : σ) :
    Except String Employee × σ :=
  let out := coll.FindOne [("e_id", BVal.str eid)] s
  match SingleResult.Decode out.1 with
  | .error err => (.error err, out.2)
  | .ok employee => (.ok employee, out.2)

/-- `FindAllEmployees`: `Find` with the empty filter, then `All` into a nil slice;
a failure of `All` is wrapped in a new message. -/
def FindAllEmployees (coll : Collection σ) (s : σ) :
    Except String (Option (List Employee)) × σ :=
  let out := coll.Find [] s
  match out.1 with
  | .error err => (.error err, out.2)
  | .ok results =>
    match Cursor.All results with
    | .error err => (.error ("error while decoding employees: " ++ err), out.2)
    | .ok employees => (.ok employees, out.2)

/-- `UpdateEmployeeById`: `UpdateOne` with the filter `{e_id: eid}` and the update
`{$set: updateEmp}`; returns the modified count. -/
def UpdateEmployeeById (coll : Collection σ) (eid : String) (updateEmp : Employee) (s : σ) :
    Except String Int × σ :=
  let out := coll.UpdateOne [("e_id", BVal.str eid)] [("$set", bsonMarshal updateEmp)] s
  match out.1 with
  | .error err => (.error err, out.2)
  | .ok result => (.ok result.ModifiedCount, out.2)

/-- `DeleteEmployeeById`: `DeleteOne` with the filter `{e_id: eid}`; returns the
deleted count. -/
def DeleteEmployeeById (coll : Collection σ) (eid : String) (s : σ) :
    Except String Int × σ :=
  let out := coll.DeleteOne [("e_id", BVal.str eid)] s
  match out.1 with
  | .error err => (.error err, out.2)
  | .ok result => (.ok result.DeletedCount, out.2)

/-- `DeleteAllEmployees`: `DeleteMany` with the empty filter; returns the deleted
count. -/
def DeleteAllEmployees (coll : Collection σ) (s : σ) : Except String Int × σ :=
  let out := coll.DeleteMany [] s
  match out.1 with
  | .error err => (.error err, out.2)
  | .ok result => (.ok result.DeletedCount, out.2)

end EmployeeRepository

/-! ## An in-memory collection -/

/-- State of the in-memory collection: the documents in insertion order and the next
ObjectID the driver will generate. -/
structure MemStore where
  docs : List Doc := []
  nextOid : Nat := 0
deriving DecidableEq, Repr

/-- A filter of equality conditions matches a document that holds every filter key
with the filter value. -/
def matchesFilter (filter d : Doc) : Bool :=
  filter.all fun kv => decide (d.lookup kv.1 = some kv.2)

/-- Setting one field of a document: an existing key keeps its place and gets the new
value, a new key is appended. -/
def setField (k : String) (v : BVal) : Doc → Doc
  | [] => [(k, v)]
  | (k', v') :: rest => if k' = k then (k, v) :: rest else (k', v') :: setField k v rest

/-- The `$set` operator: every field of the argument document is set. -/
def applySet (fields d : Doc) : Doc :=
  fields.foldl (fun acc kv => setField kv.1 kv.2 acc) d

/-- Applying an update document; `$set` is the only operator understood. -/
def applyUpdate (u : UpdateDoc) (d : Doc) : Except String Doc :=
  u.foldl (fun acc op =>
    match acc with
    | .error m => .error m
    | .ok cur => if op.1 = "$set" then .ok (applySet op.2 cur)
                 else .error ("Unknown modifier: " ++ op.1)) (.ok d)

/-- Updating the first document that matches the filter. -/
def updateFirst (filter : Doc) (u : UpdateDoc) :
    List Doc → Except String (UpdateResult × List Doc)
  | [] => .ok ({ MatchedCount := 0, ModifiedCount := 0 }, [])
  | d :: ds =>
    if matchesFilter filter d = true then
      match applyUpdate u d with
      | .error m => .error m
      | .ok d' =>
        .ok ({ MatchedCount := 1, ModifiedCount := if d' = d then 0 else 1 }, d' :: ds)
    else
      match updateFirst filter u ds with
      | .error m => .error m
      | .ok (r, ds') => .ok (r, d :: ds')

/-- Deleting the first document that matches the filter. -/
def deleteFirst (filter : Doc) : List Doc → DeleteResult × List Doc
  | [] => ({ DeletedCount := 0 }, [])
  | d :: ds =>
    if matchesFilter filter d = true then ({ DeletedCount := 1 }, ds)
    else ((deleteFirst filter ds).1, d :: (deleteFirst filter ds).2)

/-- The in-memory collection.  `InsertOne` gives a document without `_id` a fresh
ObjectID in front; `FindOne` reports the driver's `ErrNoDocuments` text when nothing
matches. -/
def mem : Collection MemStore where
  InsertOne d st :=
    let d' := if d.lookup "_id" = none then ("_id", BVal.oid st.nextOid) :: d else d
    let id := (d'.lookup "_id").getD (BVal.oid st.nextOid)
    if st.docs.any (fun x => decide (x.lookup "_id" = some id)) = true then
      (.error "E11000 duplicate key error", st)
    else
      (.ok { InsertedID := id }, { docs := st.docs ++ [d'], nextOid := st.nextOid + 1 })
  FindOne filter st :=
    match st.docs.find? (matchesFilter filter) with
    | none => (.error "mongo: no documents in result", st)
    | some d => (.ok d, st)
  Find filter st := (.ok (.ok (st.docs.filter (matchesFilter filter))), st)
  UpdateOne filter u st :=
    match updateFirst filter u st.docs with
    | .error m => (.error m, st)
    | .ok (r, ds) => (.ok r, { st with docs := ds })
  DeleteOne filter st :=
    ((.ok (deleteFirst filter st.docs).1), { st with docs := (deleteFirst filter st.docs).2 })
  DeleteMany filter st :=
    (.ok { DeletedCount := ((st.docs.filter (matchesFilter filter)).length : Int) },
     { st with docs := st.docs.filter (fun d => !(matchesFilter filter d)) })

/-! ## A collection that records the calls made on it -/

/-- A call on the collection, with its arguments. -/
inductive DriverCall
  | InsertOne (doc : Doc)
  | FindOne (filter : Doc)
  | Find (filter : Doc)
  | UpdateOne (filter : Doc) (update : UpdateDoc)
  | DeleteOne (filter : Doc)
  | DeleteMany (filter : Doc)
deriving DecidableEq, Repr

/-- The collection `c` with a log: every operation behaves as in `c` and appends
itself to the log. -/
def recording {σ : Type} (c : Collection σ) : Collection (σ × List DriverCall) where
  InsertOne d st := ((c.InsertOne d st.1).1, ((c.InsertOne d st.1).2, st.2 ++ [.InsertOne d]))
  FindOne f st := ((c.FindOne f st.1).1, ((c.FindOne f st.1).2, st.2 ++ [.FindOne f]))
  Find f st := ((c.Find f st.1).1, ((c.Find f st.1).2, st.2 ++ [.Find f]))
  UpdateOne f u st :=
    ((c.UpdateOne f u st.1).1, ((c.UpdateOne f u st.1).2, st.2 ++ [.UpdateOne f u]))
  DeleteOne f st := ((c.DeleteOne f st.1).1, ((c.DeleteOne f st.1).2, st.2 ++ [.DeleteOne f]))
  DeleteMany f st := ((c.DeleteMany f st.1).1, ((c.DeleteMany f st.1).2, st.2 ++ [.DeleteMany f]))

/-! ## usecase/employee.go -/

/-- `http.StatusOK`. -/
def StatusOK : Nat := 200

/-- `http.StatusBadRequest`. -/
def StatusBadRequest : Nat := 400

/-- The dynamic value held by the `interface{}` field `Response.Data`. -/
inductive DataVal
  | string (s : String)
  | employee (e : Employee)
  | employees (l : Option (List Employee))
  | int64 (n : Int)
deriving DecidableEq, Repr

/-- The Go struct `usecase.Response`; `Data = none` is the nil interface. -/
structure Response where
  Data : Option DataVal := none
  Error : String := ""
deriving DecidableEq, Repr

/-- JSON encoding of the value held in `Data`: a nil slice encodes as `null`. -/
def DataVal.toJson : DataVal → JVal
  | .string s => .str s
  | .employee e => .obj (jsonMarshal e)
  | .employees none => .null
  | .employees (some l) => .arr (l.map jsonMarshal)
  | .int64 n => .num n

/-- JSON encoding of a `Response` (tags `json:"data,omitempty"` and
`json:"error,omitempty"`): an interface field is empty only when it is nil, a
string field when it is `""`. -/
def Response.toJson (res : Response) : JEnvelope :=
  (match res.Data with
   | none => []
   | some d => [("data", d.toJson)]) ++
  (if res.Error = "" then [] else [("error", JVal.str res.Error)])

/-- An `http.ResponseWriter`: the header map, the status code once written, and the
JSON documents written to the body. -/
structure ResponseWriter where
  header : List (String × String) := []
  status : Option Nat := none
  body : List JEnvelope := []
deriving DecidableEq, Repr

/-- `w.Header().Add(k, v)`. -/
def ResponseWriter.HeaderAdd (w : ResponseWriter) (k v : String) : ResponseWriter :=
  { w with header := w.header ++ [(k, v)] }

/-- `w.WriteHeader(code)`: the first call fixes the status, later calls are ignored. -/
def ResponseWriter.WriteHeader (w : ResponseWriter) (code : Nat) : ResponseWriter :=
  match w.status with
  | none => { w with status := some code }
  | some _ => w

/-- `w.Write(...)` of one JSON document: writes the status 200 first when no status
was written. -/
def ResponseWriter.Write (w : ResponseWriter) (j : JEnvelope) : ResponseWriter :=
  { (w.WriteHeader StatusOK) with body := w.body ++ [j] }

/-- `json.NewEncoder(w).Encode(res)`. -/
def Encode (w : ResponseWriter) (res : Response) : ResponseWriter :=
  w.Write res.toJson

/-- An `*http.Request` as the handlers read it: the route variables `mux.Vars(r)` and
the outcome of `json.NewDecoder(r.Body).Decode(&emp)`. -/
structure Request where
  Vars : List (String × String) := []
  decodeBody : Except String Employee := .ok {}

/-- `mux.Vars(r)[k]`: the empty string when the variable is absent. -/
def Request.Var (r : Request) (k : String) : String :=
  (r.Vars.lookup k).getD ""

namespace EmployeeUsecase

variable {σ : Type}

/-- Body of `InsertEmployee` after the `defer`: final writer, final value of the
local `res`, final store.  `uuid` is the result of `uuid.NewString()`. -/
def InsertEmployee.body (coll : Collection σ) (uuid : String) (w : ResponseWriter)
    (res : Response) (r : Request) (s : σ) : ResponseWriter × Response × σ :=
  match r.decodeBody with
  | .error err => (w.WriteHeader StatusBadRequest, { res with Error := err }, s)
  | .ok emp =>
    let emp := { emp with EID := uuid }
    let out := EmployeeRepository.InsertEmployee coll emp s
    match out.1 with
    | .error err => (w.WriteHeader StatusBadRequest, { res with Error := err }, out.2)
    | .ok _ => (w.WriteHeader StatusOK, { res with Data := some (.string emp.EID) }, out.2)

/-- Handler `InsertEmployee`.  Here `res` is a struct value, `res := Response{}`, and
the operand of `defer json.NewEncoder(w).Encode(res)` is evaluated when the `defer`
statement runs: the deferred call encodes that copy, not the final `res`. -/
def InsertEmployee (coll : Collection σ) (uuid : String) (w : ResponseWriter)
    (r : Request) (s : σ) : ResponseWriter × σ :=
  let w := w.HeaderAdd "Content-Type" "application/json"
  let res : Response := {}
  let deferred : Response := res
  let fin := InsertEmployee.body coll uuid w res r s
  (Encode fin.1 deferred, fin.2.2)

/-- Body of `GetEmployeeById` after the `defer`. -/
def GetEmployeeById.body (coll : Collection σ) (w : ResponseWriter)
    (res : Response) (r : Request) (s : σ) : ResponseWriter × Response × σ :=
  let eid := r.Var "eid"
  let out := EmployeeRepository.GetEmployeeById coll eid s
  match out.1 with
  | .error err => (w.WriteHeader StatusBadRequest, { res with Error := err }, out.2)
  | .ok emp => (w.WriteHeader StatusOK, { res with Data := some (.employee emp) }, out.2)

/-- Handler `GetEmployeeById`.  Here and in the handlers below `res` is a pointer,
`res := &Response{}`: the deferred call encodes the final contents. -/
def GetEmployeeById (coll : Collection σ) (w : ResponseWriter)
    (r : Request) (s : σ) : ResponseWriter × σ :=
  let w := w.HeaderAdd "Content-Type" "application/json"
  let res : Response := {}
  let fin := GetEmployeeById.body coll w res r s
  (Encode fin.1 fin.2.1, fin.2.2)

/-- Body of `FindAllEmployees` after the `defer`. -/
def FindAllEmployees.body (coll : Collection σ) (w : ResponseWriter)
    (res : Response) (_r : Request) (s : σ) : ResponseWriter × Response × σ :=
  let out := EmployeeRepository.FindAllEmployees coll s
  match out.1 with
  | .error err => (w.WriteHeader StatusBadRequest, { res with Error := err }, out.2)
  | .ok emp => (w.WriteHeader StatusOK, { res with Data := some (.employees emp) }, out.2)

/-- Handler `FindAllEmployees`. -/
def FindAllEmployees (coll : Collection σ) (w : ResponseWriter)
    (r : Request) (s : σ) : ResponseWriter × σ :=
  let w := w.HeaderAdd "Content-Type" "application/json"
  let res : Response := {}
  let fin := FindAllEmployees.body coll w res r s
  (Encode fin.1 fin.2.1, fin.2.2)

/-- Body of `UpdateEmployeeById` after the `defer`. -/
def UpdateEmployeeById.body (coll : Collection σ) (w : ResponseWriter)
    (res : Response) (r : Request) (s : σ) : ResponseWriter × Response × σ :=
  let eid := r.Var "eid"
  if eid = "" then
    (w.WriteHeader StatusBadRequest, { res with Error := "invalid employee id" }, s)
  else
    match r.decodeBody with
    | .error err => (w.WriteHeader StatusBadRequest, { res with Error := err }, s)
    | .ok emp =>
      let emp := { emp with EID := eid }
      let out := EmployeeRepository.UpdateEmployeeById coll eid emp s
      match out.1 with
      | .error err => (w.WriteHeader StatusBadRequest, { res with Error := err }, out.2)
      | .ok count => (w.WriteHeader StatusOK, { res with Data := some (.int64 count) }, out.2)

/-- Handler `UpdateEmployeeById`. -/
def UpdateEmployeeById (coll : Collection σ) (w : ResponseWriter)
    (r : Request) (s : σ) : ResponseWriter × σ :=
  let w := w.HeaderAdd "Content-Type" "application/json"
  let res : Response := {}
  let fin := UpdateEmployeeById.body coll w res r s
  (Encode fin.1 fin.2.1, fin.2.2)

/-- Body of `DeleteEmployeeById` after the `defer`. -/
def DeleteEmployeeById.body (coll : Collection σ) (w : ResponseWriter)
    (res : Response) (r : Request) (s : σ) : ResponseWriter × Response × σ :=
  let eid := r.Var "eid"
  let out := EmployeeRepository.DeleteEmployeeById coll eid s
  match out.1 with
  | .error err => (w.WriteHeader StatusBadRequest, { res with Error := err }, out.2)
  | .ok count => (w.WriteHeader StatusOK, { res with Data := some (.int64 count) }, out.2)

/-- Handler `DeleteEmployeeById`. -/
def DeleteEmployeeById (coll : Collection σ) (w : ResponseWriter)
    (r : Request) (s : σ) : ResponseWriter × σ :=
  let w := w.HeaderAdd "Content-Type" "application/json"
  let res : Response := {}
  let fin := DeleteEmployeeById.body coll w res r s
  (Encode fin.1 fin.2.1, fin.2.2)

/-- Body of `DeleteAllEmployees` after the `defer`. -/
def DeleteAllEmployees.body (coll : Collection σ) (w : ResponseWriter)
    (res : Response) (_r : Request) (s : σ) : ResponseWriter × Response × σ :=
  let out := EmployeeRepository.DeleteAllEmployees coll s
  match out.1 with
  | .error err => (w.WriteHeader StatusBadRequest, { res with Error := err }, out.2)
  | .ok count => (w.WriteHeader StatusOK, { res with Data := some (.int64 count) }, out.2)

/-- Handler `DeleteAllEmployees`. -/
def DeleteAllEmployees (coll : Collection σ) (w : ResponseWriter)
    (r : Request) (s : σ) : ResponseWriter × σ :=
  let w := w.HeaderAdd "Content-Type" "application/json"
  let res : Response := {}
  let fin := DeleteAllEmployees.body coll w res r s
  (Encode fin.1 fin.2.1, fin.2.2)

end EmployeeUsecase

/-! ## The six employee routes (main.go) -/

/-- The six employee handlers bound by the router. -/
inductive Handler
  | InsertEmployee
  | GetEmployeeById
  | FindAllEmployees
  | UpdateEmployeeById
  | DeleteEmployeeById
  | DeleteAllEmployees
deriving DecidableEq, Repr

/-- Running the handler a route is bound to. -/
def Handler.serve {σ : Type} (h : Handler) (coll : Collection σ) (uuid : String)
    (w : ResponseWriter) (r : Request) (s : σ) : ResponseWriter × σ :=
  match h with
  | .InsertEmployee => EmployeeUsecase.InsertEmployee coll uuid w r s
  | .GetEmployeeById => EmployeeUsecase.GetEmployeeById coll w r s
  | .FindAllEmployees => EmployeeUsecase.FindAllEmployees coll w r s
  | .UpdateEmployeeById => EmployeeUsecase.UpdateEmployeeById coll w r s
  | .DeleteEmployeeById => EmployeeUsecase.DeleteEmployeeById coll w r s
  | .DeleteAllEmployees => EmployeeUsecase.DeleteAllEmployees coll w r s

/-! ## The specification's view of a request -/

/-- The ways a request can end according to the specification: the three failure
causes, or success with the payload of the gateway operation. -/
inductive Outcome
  | decodeFailure (msg : String)
  | emptyPathId
  | gatewayError (msg : String)
  | success (data : DataVal)
deriving DecidableEq, Repr

/-- Whether the outcome is the success of the gateway operation. -/
def Outcome.isSuccess : Outcome → Bool
  | .success _ => true
  | _ => false

/-- The error message of a failed outcome. -/
def Outcome.message : Outcome → Option String
  | .decodeFailure m => some m
  | .emptyPathId => some "invalid employee id"
  | .gatewayError m => some m
  | .success _ => none

/-- The envelope the specification prescribes for an outcome: the payload in `data`
on success, the message in `error` on failure. -/
def Outcome.envelope : Outcome → Response
  | .decodeFailure m => { Error := m }
  | .emptyPathId => { Error := "invalid employee id" }
  | .gatewayError m => { Error := m }
  | .success d => { Data := some d }

/-- Turning a gateway result into an outcome. -/
def Outcome.ofGateway {α : Type} (f : α → DataVal) : Except String α → Outcome
  | .error m => .gatewayError m
  | .ok a => .success (f a)

/-- The outcome of a request on a handler, read off the request and the result of
the gateway operation the specification assigns to the route. -/
def outcome {σ : Type} (h : Handler) (coll : Collection σ) (uuid : String)
    (r : Request) (s : σ) : Outcome :=
  match h with
  | .InsertEmployee =>
    match r.decodeBody with
    | .error m => .decodeFailure m
    | .ok emp =>
      Outcome.ofGateway (fun _ => DataVal.string uuid)
        (EmployeeRepository.InsertEmployee coll { emp with EID := uuid } s).1
  | .GetEmployeeById =>
    Outcome.ofGateway DataVal.employee
      (EmployeeRepository.GetEmployeeById coll (r.Var "eid") s).1
  | .FindAllEmployees =>
    Outcome.ofGateway DataVal.employees (EmployeeRepository.FindAllEmployees coll s).1
  | .UpdateEmployeeById =>
    if r.Var "eid" = "" then .emptyPathId
    else
      match r.decodeBody with
      | .error m => .decodeFailure m
      | .ok emp =>
        Outcome.ofGateway DataVal.int64
          (EmployeeRepository.UpdateEmployeeById coll (r.Var "eid")
            { emp with EID := r.Var "eid" } s).1
  | .DeleteEmployeeById =>
    Outcome.ofGateway DataVal.int64
      (EmployeeRepository.DeleteEmployeeById coll (r.Var "eid") s).1
  | .DeleteAllEmployees =>
    Outcome.ofGateway DataVal.int64 (EmployeeRepository.DeleteAllEmployees coll s).1

/-- The envelope has a member with the given key. -/
def hasMember (j : JEnvelope) (k : String) : Bool :=
  (j.lookup k).isSome

/-- The body of a handler (the statements after its `defer`), started with the
fresh envelope `Response{}`. -/
def Handler.body {σ : Type} (h : Handler) (coll : Collection σ) (uuid : String)
    (w : ResponseWriter) (r : Request) (s : σ) : ResponseWriter × Response × σ :=
  match h with
  | .InsertEmployee => EmployeeUsecase.InsertEmployee.body coll uuid w {} r s
  | .GetEmployeeById => EmployeeUsecase.GetEmployeeById.body coll w {} r s
  | .FindAllEmployees => EmployeeUsecase.FindAllEmployees.body coll w {} r s
  | .UpdateEmployeeById => EmployeeUsecase.UpdateEmployeeById.body coll w {} r s
  | .DeleteEmployeeById => EmployeeUsecase.DeleteEmployeeById.body coll w {} r s
  | .DeleteAllEmployees => EmployeeUsecase.DeleteAllEmployees.body coll w {} r s

/-- The status code of the specification's policy: 200 on success, 400 otherwise. -/
def Outcome.status (o : Outcome) : Nat :=
  if o.isSuccess = true then StatusOK else StatusBadRequest

/-! ## Sample inputs -/

/-- The create payload `{"name":"Alice","department":"Eng","position":"SWE"}`. -/
def aliceBody : Employee := { Name := "Alice", Department := "Eng", Position := "SWE" }

/-- A create request carrying `aliceBody`. -/
def createAlice : Request := { decodeBody := .ok aliceBody }

/-- A request with an empty body: the JSON decoder fails with `EOF`. -/
def emptyBodyRequest : Request := { decodeBody := .error "EOF" }

/-- The employee the insert handler hands to the gateway for `createAlice` when the
generated id is `g1`. -/
def aliceG1 : Employee := { aliceBody with EID := "g1" }

/-- The message of a store that cannot be reached. -/
def unreachableMsg : String := "server selection error: context deadline exceeded"

/-- A collection whose server cannot be reached: every operation fails. -/
def unreachable : Collection Unit where
  InsertOne _ st := (.error unreachableMsg, st)
  FindOne _ st := (.error unreachableMsg, st)
  Find _ st := (.error unreachableMsg, st)
  UpdateOne _ _ st := (.error unreachableMsg, st)
  DeleteOne _ st := (.error unreachableMsg, st)
  DeleteMany _ st := (.error unreachableMsg, st)

/-- A stored document that carries its id under `e_id`, the key the lookups use. -/
def storedAlice : Doc :=
  [("_id", .oid 0), ("e_id", .str "p"), ("name", .str "Alice"),
   ("department", .str "Eng"), ("position", .str "SWE")]

/-- A store holding `storedAlice`. -/
def aliceStore : MemStore := { docs := [storedAlice], nextOid := 1 }

/-- The partial employee of the update `{"department":"Sales"}` on path id `p`. -/
def salesUpdate : Employee := { EID := "p", Department := "Sales" }

/-! ## Basic facts -/

theorem bsonMarshal_eq (e : Employee) :
    bsonMarshal e =
      [("eid", .str e.EID), ("name", .str e.Name), ("department", .str e.Department),
       ("position", .str e.Position)] := rfl

theorem writeHeader_status (w : ResponseWriter) (c : Nat) (h : w.status = none) :
    (w.WriteHeader c).status = some c := by
  simp [ResponseWriter.WriteHeader, h]

theorem writeHeader_body (w : ResponseWriter) (c : Nat) :
    (w.WriteHeader c).body = w.body := by
  unfold ResponseWriter.WriteHeader
  split <;> rfl

theorem encode_body (w : ResponseWriter) (res : Response) :
    (Encode w res).body = w.body ++ [res.toJson] := rfl

theorem encode_status_written (w : ResponseWriter) (res : Response) (c : Nat)
    (h : w.status = some c) : (Encode w res).status = some c := by
  simp [Encode, ResponseWriter.Write, ResponseWriter.WriteHeader, h]

theorem outcome_status_cases (o : Outcome) : o.status = 200 ∨ o.status = 400 := by
  cases o <;> simp [Outcome.status, Outcome.isSuccess, StatusOK, StatusBadRequest]

/-- Every handler body calls `WriteHeader` once, with 200 on success and 400
otherwise, and leaves in `res` the envelope of the outcome. -/
theorem body_spec {σ : Type} (h : Handler) (coll : Collection σ) (uuid : String)
    (w : ResponseWriter) (r : Request) (s : σ) :
    (h.body coll uuid w r s).1 = w.WriteHeader (outcome h coll uuid r s).status ∧
    (h.body coll uuid w r s).2.1 = (outcome h coll uuid r s).envelope := by
  cases h
  · unfold Handler.body EmployeeUsecase.InsertEmployee.body outcome
    dsimp only
    split
    · simp [Outcome.status, Outcome.isSuccess, Outcome.envelope]
    · split <;> simp_all [Outcome.status, Outcome.ofGateway, Outcome.isSuccess, Outcome.envelope]
  · unfold Handler.body EmployeeUsecase.GetEmployeeById.body outcome
    dsimp only
    split <;> simp_all [Outcome.status, Outcome.ofGateway, Outcome.isSuccess, Outcome.envelope]
  · unfold Handler.body EmployeeUsecase.FindAllEmployees.body outcome
    dsimp only
    split <;> simp_all [Outcome.status, Outcome.ofGateway, Outcome.isSuccess, Outcome.envelope]
  · unfold Handler.body EmployeeUsecase.UpdateEmployeeById.body outcome
    dsimp only
    split
    · simp [Outcome.status, Outcome.isSuccess, Outcome.envelope]
    · split
      · simp [Outcome.status, Outcome.isSuccess, Outcome.envelope]
      · split <;>
          simp_all [Outcome.status, Outcome.ofGateway, Outcome.isSuccess, Outcome.envelope]
  · unfold Handler.body EmployeeUsecase.DeleteEmployeeById.body outcome
    dsimp only
    split <;> simp_all [Outcome.status, Outcome.ofGateway, Outcome.isSuccess, Outcome.envelope]
  · unfold Handler.body EmployeeUsecase.DeleteAllEmployees.body outcome
    dsimp only
    split <;> simp_all [Outcome.status, Outcome.ofGateway, Outcome.isSuccess, Outcome.envelope]

/-- The writer after a handler: the deferred `Encode` applied to the writer the body
leaves.  The insert handler encodes the envelope captured at the `defer`, the other
five the envelope the body leaves. -/
theorem serve_writer {σ : Type} (h : Handler) (coll : Collection σ) (uuid : String)
    (w : ResponseWriter) (r : Request) (s : σ) :
    (h.serve coll uuid w r s).1 =
      Encode ((w.HeaderAdd "Content-Type" "application/json").WriteHeader
          (outcome h coll uuid r s).status)
        (if h = .InsertEmployee then {} else (outcome h coll uuid r s).envelope) := by
  have hb := body_spec h coll uuid (w.HeaderAdd "Content-Type" "application/json") r s
  cases h <;>
    simp only [Handler.serve, EmployeeUsecase.InsertEmployee,
      EmployeeUsecase.GetEmployeeById, EmployeeUsecase.FindAllEmployees,
      EmployeeUsecase.UpdateEmployeeById, EmployeeUsecase.DeleteEmployeeById,
      EmployeeUsecase.DeleteAllEmployees, Handler.body] at hb ⊢ <;>
    simp [hb.1, hb.2]

/-- The status a handler writes on a fresh writer is the status of the outcome. -/
theorem serve_status {σ : Type} (h : Handler) (coll : Collection σ) (uuid : String)
    (w : ResponseWriter) (r : Request) (s : σ) (hw : w.status = none) :
    (h.serve coll uuid w r s).1.status = some (outcome h coll uuid r s).status := by
  rw [serve_writer]
  apply encode_status_written
  apply writeHeader_status
  simpa [ResponseWriter.HeaderAdd] using hw

/-- The body a handler writes: one JSON document appended to what was there. -/
theorem serve_body {σ : Type} (h : Handler) (coll : Collection σ) (uuid : String)
    (w : ResponseWriter) (r : Request) (s : σ) :
    (h.serve coll uuid w r s).1.body =
      w.body ++ [(if h = .InsertEmployee then ({} : Response)
                  else (outcome h coll uuid r s).envelope).toJson] := by
  rw [serve_writer, encode_body, writeHeader_body]
  rfl

theorem toJson_hasData (res : Response) :
    hasMember res.toJson "data" = res.Data.isSome := by
  unfold Response.toJson hasMember
  cases hd : res.Data <;> by_cases he : res.Error = "" <;> simp [he, List.lookup]

theorem toJson_hasError (res : Response) :
    hasMember res.toJson "error" = decide (res.Error ≠ "") := by
  unfold Response.toJson hasMember
  cases hd : res.Data <;> by_cases he : res.Error = "" <;> simp [he, List.lookup]

theorem envelope_exclusive (o : Outcome) :
    o.envelope.Data = none ∨ o.envelope.Error = "" := by
  cases o <;> simp [Outcome.envelope]

/-! ## Status codes and the envelope invariant -/

/-- C5: for each of the six handlers and every request, on a writer whose status is
not yet written, the status code written is 200 or 400, it is 200 exactly when the
gateway operation was reached and succeeded, and 400 on every other path, whatever
the cause (decode failure, empty path id, gateway error). -/
theorem C5_uniform_status_mapping {σ : Type} (h : Handler) (coll : Collection σ)
    (uuid : String) (w : ResponseWriter) (r : Request) (s : σ) (hw : w.status = none) :
    ((h.serve coll uuid w r s).1.status = some 200 ∨
      (h.serve coll uuid w r s).1.status = some 400) ∧
    ((h.serve coll uuid w r s).1.status = some 200 ↔
      (outcome h coll uuid r s).isSuccess = true) ∧
    ((h.serve coll uuid w r s).1.status = some 400 ↔
      (outcome h coll uuid r s).isSuccess = false) := by
  rw [serve_status h coll uuid w r s hw]
  cases ho : outcome h coll uuid r s <;>
    simp [Outcome.status, Outcome.isSuccess, StatusOK, StatusBadRequest]

/-- Witness of C5: fetching an id from the empty in-memory store is a gateway error,
and the status is 400. -/
theorem C5_uniform_status_mapping_witness :
    ({} : ResponseWriter).status = none ∧
    ((Handler.GetEmployeeById.serve mem "g1" {} { Vars := [("eid", "x")] } {}).1.status
        = some 200 ∨
      (Handler.GetEmployeeById.serve mem "g1" {} { Vars := [("eid", "x")] } {}).1.status
        = some 400) ∧
    ((Handler.GetEmployeeById.serve mem "g1" {} { Vars := [("eid", "x")] } {}).1.status
        = some 200 ↔
      (outcome Handler.GetEmployeeById mem "g1" { Vars := [("eid", "x")] } {}).isSuccess
        = true) ∧
    ((Handler.GetEmployeeById.serve mem "g1" {} { Vars := [("eid", "x")] } {}).1.status
        = some 400 ↔
      (outcome Handler.GetEmployeeById mem "g1" { Vars := [("eid", "x")] } {}).isSuccess
        = false) :=
  ⟨rfl, C5_uniform_status_mapping Handler.GetEmployeeById mem "g1" {}
    { Vars := [("eid", "x")] } {} rfl⟩

/-- C10: for each of the six handlers, every request and every behaviour of the
store, the handler writes one envelope, and that envelope does not carry both a
`data` member and an `error` member. -/
theorem C10_envelope_at_most_one {σ : Type} (h : Handler) (coll : Collection σ)
    (uuid : String) (w : ResponseWriter) (r : Request) (s : σ) :
    ∃ j : JEnvelope, (h.serve coll uuid w r s).1.body = w.body ++ [j] ∧
      ¬ (hasMember j "data" = true ∧ hasMember j "error" = true) := by
  refine ⟨_, serve_body h coll uuid w r s, ?_⟩
  rw [toJson_hasData, toJson_hasError]
  by_cases hi : h = .InsertEmployee
  · simp [hi]
  · rcases envelope_exclusive (outcome h coll uuid r s) with hd | he
    · simp [hi, hd]
    · simp [hi, he]

/-! ## Zero counts -/

/-- C6: when the gateway reports count 0 and no error, the update handler (path id
non-empty, body decoded) and the delete handler answer with status 200 and the
envelope whose only member is `data` with the number 0. -/
theorem C6_zero_count_is_success {σ : Type} (coll : Collection σ) (w : ResponseWriter)
    (r : Request) (s : σ) (emp : Employee) (hw : w.status = none) :
    (r.Var "eid" ≠ "" → r.decodeBody = .ok emp →
      (EmployeeRepository.UpdateEmployeeById coll (r.Var "eid")
        { emp with EID := r.Var "eid" } s).1 = .ok 0 →
      (EmployeeUsecase.UpdateEmployeeById coll w r s).1.status = some 200 ∧
      (EmployeeUsecase.UpdateEmployeeById coll w r s).1.body =
        w.body ++ [[("data", JVal.num 0)]]) ∧
    ((EmployeeRepository.DeleteEmployeeById coll (r.Var "eid") s).1 = .ok 0 →
      (EmployeeUsecase.DeleteEmployeeById coll w r s).1.status = some 200 ∧
      (EmployeeUsecase.DeleteEmployeeById coll w r s).1.body =
        w.body ++ [[("data", JVal.num 0)]]) := by
  constructor
  · intro hid hd hg
    have ho : outcome .UpdateEmployeeById coll "" r s = .success (.int64 0) := by
      simp [outcome, hid, hd, hg, Outcome.ofGateway]
    have h1 := serve_status .UpdateEmployeeById coll "" w r s hw
    have h2 := serve_body .UpdateEmployeeById coll "" w r s
    rw [ho] at h1 h2
    exact ⟨h1, h2⟩
  · intro hg
    have ho : outcome .DeleteEmployeeById coll "" r s = .success (.int64 0) := by
      simp [outcome, hg, Outcome.ofGateway]
    have h1 := serve_status .DeleteEmployeeById coll "" w r s hw
    have h2 := serve_body .DeleteEmployeeById coll "" w r s
    rw [ho] at h1 h2
    exact ⟨h1, h2⟩

/-- Witness of C6: on the empty in-memory store no document matches id `p`, the
gateway reports count 0, and both handlers answer 200 with `data` 0. -/
theorem C6_zero_count_is_success_witness :
    ((EmployeeUsecase.UpdateEmployeeById mem {}
        { Vars := [("eid", "p")], decodeBody := .ok { Department := "Sales" } } {}).1.status
        = some 200 ∧
      (EmployeeUsecase.UpdateEmployeeById mem {}
        { Vars := [("eid", "p")], decodeBody := .ok { Department := "Sales" } } {}).1.body
        = [] ++ [[("data", JVal.num 0)]]) ∧
    ((EmployeeUsecase.DeleteEmployeeById mem {}
        { Vars := [("eid", "p")], decodeBody := .ok { Department := "Sales" } } {}).1.status
        = some 200 ∧
      (EmployeeUsecase.DeleteEmployeeById mem {}
        { Vars := [("eid", "p")], decodeBody := .ok { Department := "Sales" } } {}).1.body
        = [] ++ [[("data", JVal.num 0)]]) :=
  ⟨(C6_zero_count_is_success mem {}
      { Vars := [("eid", "p")], decodeBody := .ok { Department := "Sales" } } {}
      { Department := "Sales" } rfl).1 (by decide) rfl rfl,
   (C6_zero_count_is_success mem {}
      { Vars := [("eid", "p")], decodeBody := .ok { Department := "Sales" } } {}
      { Department := "Sales" } rfl).2 rfl⟩

/-! ## Input rejection and the arguments handed to the gateway -/

/-- C7: when the body fails to decode, the insert handler writes status 400, leaves
the store as it was and makes no call on the collection; the update handler does the
same when the body fails to decode or the path id is empty. -/
theorem C7_rejection_precedes_store_access {σ : Type} (coll : Collection σ)
    (uuid : String) (w : ResponseWriter) (r : Request) (s : σ) (msg : String)
    (hw : w.status = none) :
    (r.decodeBody = .error msg →
      (EmployeeUsecase.InsertEmployee coll uuid w r s).1.status = some 400 ∧
      (EmployeeUsecase.InsertEmployee coll uuid w r s).2 = s ∧
      (EmployeeUsecase.InsertEmployee (recording coll) uuid w r (s, [])).2 = (s, [])) ∧
    (r.decodeBody = .error msg ∨ r.Var "eid" = "" →
      (EmployeeUsecase.UpdateEmployeeById coll w r s).1.status = some 400 ∧
      (EmployeeUsecase.UpdateEmployeeById coll w r s).2 = s ∧
      (EmployeeUsecase.UpdateEmployeeById (recording coll) w r (s, [])).2 = (s, [])) := by
  constructor
  · intro hd
    have ho : outcome .InsertEmployee coll uuid r s = .decodeFailure msg := by
      simp [outcome, hd]
    have h1 := serve_status .InsertEmployee coll uuid w r s hw
    rw [ho] at h1
    refine ⟨h1, ?_, ?_⟩ <;>
      simp [EmployeeUsecase.InsertEmployee, EmployeeUsecase.InsertEmployee.body, hd]
  · intro hd
    have ho : (outcome .UpdateEmployeeById coll uuid r s).isSuccess = false := by
      unfold outcome
      rcases hd with hd | hd
      · by_cases hid : r.Var "eid" = "" <;> simp [hid, hd, Outcome.isSuccess]
      · simp [hd, Outcome.isSuccess]
    have h1 := serve_status .UpdateEmployeeById coll uuid w r s hw
    simp only [Outcome.status, ho] at h1
    refine ⟨h1, ?_, ?_⟩ <;>
      · unfold EmployeeUsecase.UpdateEmployeeById EmployeeUsecase.UpdateEmployeeById.body
        rcases hd with hd | hd
        · by_cases hid : r.Var "eid" = "" <;> simp [hid, hd]
        · simp [hd]

/-- Witness of C7: a body that fails to decode with `EOF`, sent to both handlers
over the in-memory store. -/
theorem C7_rejection_precedes_store_access_witness :
    ((EmployeeUsecase.InsertEmployee mem "g1" {}
        { Vars := [("eid", "p")], decodeBody := .error "EOF" } {}).1.status = some 400 ∧
      (EmployeeUsecase.InsertEmployee mem "g1" {}
        { Vars := [("eid", "p")], decodeBody := .error "EOF" } {}).2 = {} ∧
      (EmployeeUsecase.InsertEmployee (recording mem) "g1" {}
        { Vars := [("eid", "p")], decodeBody := .error "EOF" } ({}, [])).2 = ({}, [])) ∧
    ((EmployeeUsecase.UpdateEmployeeById mem {}
        { Vars := [("eid", "p")], decodeBody := .error "EOF" } {}).1.status = some 400 ∧
      (EmployeeUsecase.UpdateEmployeeById mem {}
        { Vars := [("eid", "p")], decodeBody := .error "EOF" } {}).2 = {} ∧
      (EmployeeUsecase.UpdateEmployeeById (recording mem) {}
        { Vars := [("eid", "p")], decodeBody := .error "EOF" } ({}, [])).2 = ({}, [])) :=
  ⟨(C7_rejection_precedes_store_access mem "g1" {}
      { Vars := [("eid", "p")], decodeBody := .error "EOF" } {} "EOF" rfl).1 rfl,
   (C7_rejection_precedes_store_access mem "g1" {}
      { Vars := [("eid", "p")], decodeBody := .error "EOF" } {} "EOF" rfl).2 (Or.inl rfl)⟩

/-- C8: for a non-empty path id `p` and a body decoded to `emp`, whatever id `emp`
carries, the update handler makes exactly one call on the collection, the `UpdateOne`
of the gateway's `UpdateEmployeeById p { emp with EID := p }`: the filter is
`e_id = p` and the `$set` document carries the id `p`; store and call log after the
handler are those after that one gateway call. -/
theorem C8_update_targets_path_id {σ : Type} (coll : Collection σ) (w : ResponseWriter)
    (r : Request) (s : σ) (p : String) (emp : Employee)
    (hp : r.Var "eid" = p) (hne : p ≠ "") (hd : r.decodeBody = .ok emp) :
    (EmployeeUsecase.UpdateEmployeeById (recording coll) w r (s, [])).2 =
      (EmployeeRepository.UpdateEmployeeById (recording coll) p
        { EID := p, Name := emp.Name, Department := emp.Department,
          Position := emp.Position } (s, [])).2 ∧
    (EmployeeUsecase.UpdateEmployeeById (recording coll) w r (s, [])).2.2 =
      [DriverCall.UpdateOne [("e_id", .str p)]
        [("$set", [("eid", .str p), ("name", .str emp.Name),
          ("department", .str emp.Department), ("position", .str emp.Position)])]] ∧
    (EmployeeUsecase.UpdateEmployeeById coll w r s).2 =
      (EmployeeRepository.UpdateEmployeeById coll p
        { EID := p, Name := emp.Name, Department := emp.Department,
          Position := emp.Position } s).2 := by
  subst hp
  refine ⟨?_, ?_, ?_⟩
  · unfold EmployeeUsecase.UpdateEmployeeById EmployeeUsecase.UpdateEmployeeById.body
    simp only [hne, hd, if_false]
    split <;> rfl
  · unfold EmployeeUsecase.UpdateEmployeeById EmployeeUsecase.UpdateEmployeeById.body
    simp only [hne, hd, if_false]
    split <;>
      · unfold EmployeeRepository.UpdateEmployeeById
        dsimp only
        split <;> simp [recording, bsonMarshal_eq]
  · unfold EmployeeUsecase.UpdateEmployeeById EmployeeUsecase.UpdateEmployeeById.body
    simp only [hne, hd, if_false]
    split <;> rfl

/-- Witness of C8: path id `p`, body carrying the id `other`. -/
theorem C8_update_targets_path_id_witness :
    (EmployeeUsecase.UpdateEmployeeById (recording mem) {}
        { Vars := [("eid", "p")], decodeBody := .ok { EID := "other", Name := "Al" } }
        ({}, [])).2 =
      (EmployeeRepository.UpdateEmployeeById (recording mem) "p"
        { EID := "p", Name := "Al", Department := "", Position := "" } ({}, [])).2 ∧
    (EmployeeUsecase.UpdateEmployeeById (recording mem) {}
        { Vars := [("eid", "p")], decodeBody := .ok { EID := "other", Name := "Al" } }
        ({}, [])).2.2 =
      [DriverCall.UpdateOne [("e_id", .str "p")]
        [("$set", [("eid", .str "p"), ("name", .str "Al"),
          ("department", .str ""), ("position", .str "")])]] ∧
    (EmployeeUsecase.UpdateEmployeeById mem {}
        { Vars := [("eid", "p")], decodeBody := .ok { EID := "other", Name := "Al" } }
        {}).2 =
      (EmployeeRepository.UpdateEmployeeById mem "p"
        { EID := "p", Name := "Al", Department := "", Position := "" } {}).2 :=
  C8_update_targets_path_id mem {}
    { Vars := [("eid", "p")], decodeBody := .ok { EID := "other", Name := "Al" } } {}
    "p" { EID := "other", Name := "Al" } rfl (by decide) rfl

/-- C9: for a body decoded to `emp`, whatever id `emp` carries, the insert handler
makes exactly one call on the collection, the `InsertOne` of the gateway's
`InsertEmployee` on the employee whose id is the generated token `uuid` and whose
name, department and position are those of `emp`; store and call log after the
handler are those after that one gateway call. -/
theorem C9_insert_assigns_generated_id {σ : Type} (coll : Collection σ) (uuid : String)
    (w : ResponseWriter) (r : Request) (s : σ) (emp : Employee)
    (hd : r.decodeBody = .ok emp) :
    (EmployeeUsecase.InsertEmployee (recording coll) uuid w r (s, [])).2 =
      (EmployeeRepository.InsertEmployee (recording coll)
        { EID := uuid, Name := emp.Name, Department := emp.Department,
          Position := emp.Position } (s, [])).2 ∧
    (EmployeeUsecase.InsertEmployee (recording coll) uuid w r (s, [])).2.2 =
      [DriverCall.InsertOne [("eid", .str uuid), ("name", .str emp.Name),
        ("department", .str emp.Department), ("position", .str emp.Position)]] ∧
    (EmployeeUsecase.InsertEmployee coll uuid w r s).2 =
      (EmployeeRepository.InsertEmployee coll
        { EID := uuid, Name := emp.Name, Department := emp.Department,
          Position := emp.Position } s).2 := by
  refine ⟨?_, ?_, ?_⟩
  · unfold EmployeeUsecase.InsertEmployee EmployeeUsecase.InsertEmployee.body
    simp only [hd]
    split <;> rfl
  · unfold EmployeeUsecase.InsertEmployee EmployeeUsecase.InsertEmployee.body
    simp only [hd]
    split <;>
      · unfold EmployeeRepository.InsertEmployee
        dsimp only
        split <;> simp [recording, bsonMarshal_eq]
  · unfold EmployeeUsecase.InsertEmployee EmployeeUsecase.InsertEmployee.body
    simp only [hd]
    split <;> rfl

/-- Witness of C9: a body carrying the id `mine`, generated id `g1`. -/
theorem C9_insert_assigns_generated_id_witness :
    (EmployeeUsecase.InsertEmployee (recording mem) "g1" {}
        { decodeBody := .ok { EID := "mine", Name := "Al" } } ({}, [])).2 =
      (EmployeeRepository.InsertEmployee (recording mem)
        { EID := "g1", Name := "Al", Department := "", Position := "" } ({}, [])).2 ∧
    (EmployeeUsecase.InsertEmployee (recording mem) "g1" {}
        { decodeBody := .ok { EID := "mine", Name := "Al" } } ({}, [])).2.2 =
      [DriverCall.InsertOne [("eid", .str "g1"), ("name", .str "Al"),
        ("department", .str ""), ("position", .str "")]] ∧
    (EmployeeUsecase.InsertEmployee mem "g1" {}
        { decodeBody := .ok { EID := "mine", Name := "Al" } } {}).2 =
      (EmployeeRepository.InsertEmployee mem
        { EID := "g1", Name := "Al", Department := "", Position := "" } {}).2 :=
  C9_insert_assigns_generated_id mem "g1" {}
    { decodeBody := .ok { EID := "mine", Name := "Al" } } {}
    { EID := "mine", Name := "Al" } rfl

/-! ## The envelope written by the insert handler -/

/-- Whatever the request and the store do, the insert handler writes the empty
envelope: the deferred `Encode` received a copy of `Response{}`. -/
theorem insert_body_always_empty {σ : Type} (coll : Collection σ) (uuid : String)
    (w : ResponseWriter) (r : Request) (s : σ) :
    (EmployeeUsecase.InsertEmployee coll uuid w r s).1.body = w.body ++ [[]] := by
  have h := serve_body .InsertEmployee coll uuid w r s
  simpa [Handler.serve, Response.toJson] using h

/-- The five handlers that hold `res` by pointer carry the message of a failed
request in `error` and write no `data`, when the message is not empty. -/
theorem error_envelope_of_pointer_handlers {σ : Type} (h : Handler) (coll : Collection σ)
    (uuid : String) (w : ResponseWriter) (r : Request) (s : σ) (msg : String)
    (hh : h ≠ .InsertEmployee) (hm : (outcome h coll uuid r s).message = some msg)
    (hne : msg ≠ "") :
    (h.serve coll uuid w r s).1.body = w.body ++ [[("error", JVal.str msg)]] := by
  rw [serve_body]
  cases ho : outcome h coll uuid r s <;>
    simp_all [Outcome.message, Outcome.envelope, Response.toJson]

/-- C1: the create request `createAlice` with generated id `g1` on the empty store:
the body decodes and the gateway insert succeeds (the employee is stored), the
status is 200, but the envelope written is the empty object: it has no `data`
member, so it is not the envelope carrying the generated id. -/
theorem C1_insert_success_writes_empty_envelope :
    createAlice.decodeBody = .ok aliceBody ∧
    (EmployeeRepository.InsertEmployee mem aliceG1 {}).1 = .ok (.oid 0) ∧
    (EmployeeUsecase.InsertEmployee mem "g1" {} createAlice {}).2.docs =
      [[("_id", .oid 0), ("eid", .str "g1"), ("name", .str "Alice"),
        ("department", .str "Eng"), ("position", .str "SWE")]] ∧
    (EmployeeUsecase.InsertEmployee mem "g1" {} createAlice {}).1.status = some 200 ∧
    (EmployeeUsecase.InsertEmployee mem "g1" {} createAlice {}).1.body = [[]] ∧
    (EmployeeUsecase.InsertEmployee mem "g1" {} createAlice {}).1.body ≠
      [[("data", JVal.str "g1")]] := by
  refine ⟨rfl, rfl, rfl, rfl, rfl, by decide⟩

/-- C4: two failing create requests: an empty body (decode failure `EOF`) and a
gateway error (store not reachable).  Both get status 400, and in both the envelope
written is the empty object: it has no `error` member carrying the message. -/
theorem C4_insert_failure_writes_empty_envelope :
    outcome .InsertEmployee mem "g1" emptyBodyRequest {} = .decodeFailure "EOF" ∧
    (EmployeeUsecase.InsertEmployee mem "g1" {} emptyBodyRequest {}).1.status = some 400 ∧
    (EmployeeUsecase.InsertEmployee mem "g1" {} emptyBodyRequest {}).1.body = [[]] ∧
    (EmployeeUsecase.InsertEmployee mem "g1" {} emptyBodyRequest {}).1.body ≠
      [[("error", JVal.str "EOF")]] ∧
    outcome .InsertEmployee unreachable "g1" createAlice () =
      .gatewayError unreachableMsg ∧
    (EmployeeUsecase.InsertEmployee unreachable "g1" {} createAlice ()).1.status
      = some 400 ∧
    (EmployeeUsecase.InsertEmployee unreachable "g1" {} createAlice ()).1.body = [[]] ∧
    (EmployeeUsecase.InsertEmployee unreachable "g1" {} createAlice ()).1.body ≠
      [[("error", JVal.str unreachableMsg)]] := by
  refine ⟨rfl, rfl, rfl, by decide, rfl, rfl, rfl, by decide⟩

/-! ## The keys documents are written and looked up under -/

/-- The gateway's update sends a `$set` holding all four fields of the employee,
empty or not, under the keys `eid`, `name`, `department`, `position`. -/
theorem update_sets_every_field {σ : Type} (coll : Collection σ) (eid : String)
    (e : Employee) (s : σ) :
    (EmployeeRepository.UpdateEmployeeById (recording coll) eid e (s, [])).2.2 =
      [DriverCall.UpdateOne [("e_id", .str eid)]
        [("$set", [("eid", .str e.EID), ("name", .str e.Name),
          ("department", .str e.Department), ("position", .str e.Position)])]] := by
  unfold EmployeeRepository.UpdateEmployeeById
  dsimp only
  split <;> simp [recording, bsonMarshal_eq]

/-- No document written by the gateway's insert matches a lookup by `e_id`. -/
theorem marshalled_not_matched (e : Employee) (n : Nat) (eid : String) :
    matchesFilter [("e_id", .str eid)] (("_id", .oid n) :: bsonMarshal e) = false := by
  rw [bsonMarshal_eq]
  simp [matchesFilter, List.lookup]

/-- A marshalled employee has no `_id` member. -/
theorem marshalled_no_id (e : Employee) : (bsonMarshal e).lookup "_id" = none := by
  rw [bsonMarshal_eq]
  simp [List.lookup]

/-- The in-memory `InsertOne` on a marshalled employee. -/
theorem mem_insertOne_marshalled (e : Employee) (st : MemStore) :
    mem.InsertOne (bsonMarshal e) st =
      if st.docs.any (fun x => decide (x.lookup "_id" = some (.oid st.nextOid))) = true then
        (.error "E11000 duplicate key error", st)
      else
        (.ok { InsertedID := .oid st.nextOid },
         { docs := st.docs ++ [("_id", .oid st.nextOid) :: bsonMarshal e],
           nextOid := st.nextOid + 1 }) := by
  have hc : ∀ (v : BVal) (d : Doc), List.lookup "_id" (("_id", v) :: d) = some v := by
    intro v d
    simp [List.lookup]
  simp only [mem, marshalled_no_id, if_true, hc, Option.getD_some]

/-- On a store in which no document carries `e_id = e.EID`, a successful insert of
`e` through the gateway is followed by a failing lookup of `e.EID`. -/
theorem insert_then_get_not_found (e : Employee) (st st' : MemStore) (id : BVal)
    (hfresh : ∀ d ∈ st.docs, matchesFilter [("e_id", .str e.EID)] d = false)
    (hins : EmployeeRepository.InsertEmployee mem e st = (.ok id, st')) :
    EmployeeRepository.GetEmployeeById mem e.EID st' =
      (.error "mongo: no documents in result", st') := by
  unfold EmployeeRepository.InsertEmployee at hins
  rw [mem_insertOne_marshalled] at hins
  by_cases hc : st.docs.any (fun x => decide (x.lookup "_id" = some (.oid st.nextOid))) = true
  · simp [hc] at hins
  · simp only [hc, if_false, Prod.mk.injEq, Except.ok.injEq] at hins
    obtain ⟨_, rfl⟩ := hins
    have hnone : (st.docs ++ [("_id", BVal.oid st.nextOid) :: bsonMarshal e]).find?
        (matchesFilter [("e_id", .str e.EID)]) = none := by
      rw [List.find?_eq_none]
      intro d hd
      rcases List.mem_append.mp hd with hd | hd
      · simp [hfresh d hd]
      · rw [List.mem_singleton] at hd
        subst hd
        simp [marshalled_not_matched]
    simp [EmployeeRepository.GetEmployeeById, mem, hnone, SingleResult.Decode]

/-- C2: the employee `aliceG1` (id `g1`) inserted through the gateway into the empty
store: the insert succeeds and writes the id under the key `eid`; the lookup of
`g1`, which filters on `e_id`, then finds no document and returns the driver's
no-documents error instead of the employee. -/
theorem C2_insert_then_get_finds_nothing :
    EmployeeRepository.InsertEmployee mem aliceG1 {} =
      (.ok (.oid 0),
       { docs := [[("_id", .oid 0), ("eid", .str "g1"), ("name", .str "Alice"),
                   ("department", .str "Eng"), ("position", .str "SWE")]],
         nextOid := 1 }) ∧
    EmployeeRepository.GetEmployeeById mem "g1"
        (EmployeeRepository.InsertEmployee mem aliceG1 {}).2 =
      (.error "mongo: no documents in result",
       (EmployeeRepository.InsertEmployee mem aliceG1 {}).2) := by
  exact ⟨rfl, rfl⟩

/-- C3: the update `{"department":"Sales"}` for path id `p` on a store holding
`storedAlice`: the `$set` sent to the store holds the empty name and the empty
position as well, the document is modified, and afterwards its name and position
are empty instead of `Alice` and `SWE`. -/
theorem C3_update_overwrites_with_empty_fields :
    (EmployeeRepository.UpdateEmployeeById (recording mem) "p" salesUpdate
        (aliceStore, [])).2.2 =
      [DriverCall.UpdateOne [("e_id", .str "p")]
        [("$set", [("eid", .str "p"), ("name", .str ""),
          ("department", .str "Sales"), ("position", .str "")])]] ∧
    (EmployeeRepository.GetEmployeeById mem "p" aliceStore).1 =
      .ok { EID := "", Name := "Alice", Department := "Eng", Position := "SWE" } ∧
    EmployeeRepository.UpdateEmployeeById mem "p" salesUpdate aliceStore =
      (.ok 1,
       { docs := [[("_id", .oid 0), ("e_id", .str "p"), ("name", .str ""),
                   ("department", .str "Sales"), ("position", .str ""),
                   ("eid", .str "p")]],
         nextOid := 1 }) ∧
    (EmployeeRepository.GetEmployeeById mem "p"
        (EmployeeRepository.UpdateEmployeeById mem "p" salesUpdate aliceStore).2).1 =
      .ok { EID := "p", Name := "", Department := "Sales", Position := "" } := by
  exact ⟨rfl, rfl, rfl, rfl⟩

end RestApi
